import Mathlib

/-
Verification of the register-maps code generator (src/registermaps/vhdl.py and
src/registermaps/component_to_c.py) against its natural-language specification.

The Python sources are shallowly embedded: each embedded definition carries a
doc comment naming the Python function it is translated from.  Machine values
are modelled as Nat with explicit bit arithmetic; VHDL bit-vector slices
x(hi downto lo) become division/modulus by powers of two; Python exceptions
become Except / Option.
-/

namespace RegisterMaps

/-- VHDL slice read x(off+wd-1 downto off): extract wd bits of x at bit off. -/
def extractBits (x off wd : Nat) : Nat := x / 2 ^ off % 2 ^ wd

/-- VHDL slice assignment x(off+wd-1 downto off) := v: overwrite bits
[off, off+wd) of x with the wd-bit value v, leaving other bits unchanged. -/
def setSlice (x off wd v : Nat) : Nat :=
  x % 2 ^ off + v * 2 ^ off + x / 2 ^ (off + wd) * 2 ^ (off + wd)

/-! ## C1: byte-enable masked UPDATE of a simple register

From vhdl.py, GenerateRegUpdate.simpleRegister: the lane loop is
for bit, start in enumerate(range(0, node.width, 8)) with
end = min(start + 7, node.width); each lane emits, guarded on byteen(bit),
the assignment reg(end downto start) := FMT(dat(end downto start)). -/

/-- The (byte-enable bit, start, end) triples of the emitted lane assignments of
GenerateRegUpdate.simpleRegister, exactly as the source computes them. -/
def regUpdateLanes (width : Nat) : List (Nat × Nat × Nat) :=
  (List.range ((width + 7) / 8)).map (fun bit => (bit, 8 * bit, min (8 * bit + 7) width))

/-- Execute the generated UPDATE_ body on a simple register of the given width.
The register has bits width-1 downto 0, so a lane assignment whose high index
is not below the width is a VHDL bounds violation, modelled as none. -/
def updateSimpleReg (width byteen reg dat : Nat) : Option Nat :=
  (regUpdateLanes width).foldl
    (fun acc lane =>
      acc.bind (fun r =>
        if byteen.testBit lane.1 then
          if lane.2.2 < width then
            some (setSlice r lane.2.1 (lane.2.2 + 1 - lane.2.1)
              (extractBits dat lane.2.1 (lane.2.2 + 1 - lane.2.1)))
          else none
        else some r))
    (some reg)

/-- C1 (code bug): for a simple register of width 4, the all-zero byte-enable
mask does leave the register unchanged, but the single emitted lane assignment
is reg(4 downto 0) — bit 4 is not a bit of a 4-bit register (3 downto 0) — so
with the all-ones mask the generated UPDATE procedure is a bounds violation
rather than the claimed full overwrite.  The source computes the lane high
index as min(start+7, node.width); a full overwrite needs min(start+7, width-1). -/
theorem c1_update_width4_lane_out_of_range :
    updateSimpleReg 4 0 5 10 = some 5 ∧
    updateSimpleReg 4 1 5 10 = none ∧
    regUpdateLanes 4 = [(0, 0, 4)] ∧ ¬ (4 < 4) := by decide

/-! ## C4: address constants of a register array

From vhdl.py, GenerateAddressConstants.visit_RegisterArray: consts is the
4-tuple list (_BASEADDR, node.offset), (_LASTADDR, node.offset+node.size-1),
(_FRAMESIZE, node.framesize), (_FRAMECOUNT, node.framesize), each printed as
constant node.name+suffix: t_addr := value. -/

/-- The (constant name, value) pairs emitted by
GenerateAddressConstants.visit_RegisterArray for a register array with the
given name, offset, size, framesize and framecount.  Note the source pairs
the _FRAMECOUNT suffix with node.framesize, not node.framecount. -/
def registerArrayConsts (name : String) (offset size framesize _framecount : Nat) :
    List (String × Nat) :=
  [ (name ++ "_BASEADDR", offset),
    (name ++ "_LASTADDR", offset + size - 1),
    (name ++ "_FRAMESIZE", framesize),
    (name ++ "_FRAMECOUNT", framesize) ]

/-- C4 (code bug): for a register array at offset 0 of size 32 with framesize 8
and framecount 4, the emitted NAME_FRAMECOUNT constant has value 8 — the frame
size — not the frame count 4 the claim (and the constant's own name) require.
The other three constants match the claim. -/
theorem c4_framecount_constant_holds_framesize :
    registerArrayConsts "X" 0 32 8 4 =
      [("X_BASEADDR", 0), ("X_LASTADDR", 31), ("X_FRAMESIZE", 8), ("X_FRAMECOUNT", 8)] ∧
    (8 : Nat) ≠ 4 :=
  ⟨rfl, by decide⟩

/-! ## Address-space model and the generated case dispatch (C2, C7) -/

/-- A child entity as the VHDL when-line generators see it: name, storage
class flags, and whether it is a Register or a RegisterArray. -/
structure SChild where
  name : String
  readOnly : Bool
  writeOnly : Bool
  isArray : Bool
deriving DecidableEq

/-- Modelled from the spec: the space module is not under src/.  Per §3, an
address space iterates as an ordered sequence of slots, each an occupied slot
(child, position, size) or a gap marker (position, size); vhdl.py unpacks both
as (obj, _, _) triples with a falsy obj for gaps, so a slot is modelled as an
(Option SChild, position, size) triple with none for a gap. -/
abbrev Space := List (Option SChild × Nat × Nat)

/-- Modelled from the spec: space.items() is the (child, offset, size)
enumeration that ignores gaps (§3). -/
def Space.items (s : Space) : List (SChild × Nat × Nat) :=
  s.filterMap (fun it => it.1.map (fun c => (c, it.2.1, it.2.2)))

/-- From GenerateFunctionBodies._readwhenlines: iterate node.space; a gap or a
write-only child sets the gaps flag and is skipped, every other child gets a
when-line.  Returns the when-lines (as child, offset, size) and whether the
trailing when-others line (success := false) was appended. -/
def readwhenlines (s : Space) : List (SChild × Nat × Nat) × Bool :=
  s.foldl
    (fun acc it =>
      match it.1 with
      | none => (acc.1, true)
      | some c =>
        if c.writeOnly then (acc.1, true)
        else (acc.1 ++ [(c, it.2.1, it.2.2)], acc.2))
    ([], false)

/-- From GenerateFunctionBodies._updatewhenlines: iterate node.space.items();
since items() already skips gaps, the (not obj) test in the source never
fires, and only a read-only child sets the gaps flag; every other child gets a
when-line.  Returns the when-lines and whether when-others was appended. -/
def updatewhenlines (s : Space) : List (SChild × Nat × Nat) × Bool :=
  s.items.foldl
    (fun acc it =>
      if it.1.readOnly then (acc.1, true)
      else (acc.1 ++ [(it.1, it.2.1, it.2.2)], acc.2))
    ([], false)

/-- Which when-line of the emitted case statement matches a given offset: a
register line matches its exact NAME_ADDR (its offset), a register-array line
matches the range NAME_BASEADDR to NAME_LASTADDR (offset to offset+size-1),
per GenerateAddressConstants. -/
def whenMatch (lines : List (SChild × Nat × Nat)) (offs : Nat) : Option SChild :=
  (lines.find? (fun it =>
    if it.1.isArray then decide (it.2.1 ≤ offs) && decide (offs < it.2.1 + it.2.2)
    else decide (offs = it.2.1))).map (fun it => it.1)

/-! ## C2: heterogeneous register-array dispatch

From vhdl.py, GenerateFunctionBodies._complexregarrayread and
_complexregarrayupdate: the emitted procedure body is
idx := offset / NAME_FRAMESIZE; offs := offset mod NAME_FRAMESIZE;
then case offs is ... dispatching the when-lines, each acting on ra(idx). -/

/-- The (element index, matched child) targeted by the generated READ_ body of
a heterogeneous register array, per _complexregarrayread. -/
def complexArrayReadTarget (framesize : Nat) (s : Space) (offset : Nat) :
    Nat × Option SChild :=
  let idx := offset / framesize
  let offs := offset % framesize
  (idx, whenMatch (readwhenlines s).1 offs)

/-- The (element index, matched child) targeted by the generated UPDATE_ and
UPDATESIG_ bodies of a heterogeneous register array, per
_complexregarrayupdate. -/
def complexArrayUpdateTarget (framesize : Nat) (s : Space) (offset : Nat) :
    Nat × Option SChild :=
  let idx := offset / framesize
  let offs := offset % framesize
  (idx, whenMatch (updatewhenlines s).1 offs)

/-- Register A of the §8 array scenario: read-write, not an array. -/
def regA : SChild := ⟨"A", false, false, false⟩

/-- Register B of the §8 array scenario: read-write, not an array. -/
def regB : SChild := ⟨"B", false, false, false⟩

/-- The §8 scenario frame: a heterogeneous array frame of 8 words with
register A at offset 0 and register B at offset 4, the rest gaps. -/
def hetFrameSpace : Space :=
  [(some regA, 0, 1), (none, 1, 3), (some regB, 4, 1), (none, 5, 3)]

/-- C2: the generated read and update procedures of a heterogeneous register
array first compute idx = offset / framesize and offs = offset mod framesize
and dispatch the frame's when-lines on offs against element ra(idx); for the
§8 scenario (framesize 8, A at 0, B at 4), flat offset 12 gives element index
1, intra-offset 4, and dispatches to register B in both procedures. -/
theorem c2_het_array_divmod_dispatch (framesize offset : Nat) (s : Space) :
    complexArrayReadTarget framesize s offset =
      (offset / framesize, whenMatch (readwhenlines s).1 (offset % framesize)) ∧
    complexArrayUpdateTarget framesize s offset =
      (offset / framesize, whenMatch (updatewhenlines s).1 (offset % framesize)) ∧
    12 / 8 = 1 ∧ 12 % 8 = 4 ∧
    complexArrayReadTarget 8 hetFrameSpace 12 = (1, some regB) ∧
    complexArrayUpdateTarget 8 hetFrameSpace 12 = (1, some regB) :=
  ⟨rfl, rfl, rfl, rfl, by decide, by decide⟩

/-! ## C7: the when-others default branch and gap reads -/

/-- The success flag produced by the emitted READ_REGFILE case statement at a
given offset: a matching when-line leaves success true (register lines assign
dat, array lines delegate), an unmatched offset falls to the when-others line
(success := false) when it was emitted, and with no when-others line the case
statement is incomplete, modelled as none. -/
def regfileReadSuccess (s : Space) (offset : Nat) : Option Bool :=
  match whenMatch (readwhenlines s).1 offset with
  | some _ => some true
  | none => if (readwhenlines s).2 then some false else none

/-- The §8 gap scenario: a component space with a 2-word gap between two
read-write registers. -/
def gapComponentSpace : Space :=
  [(some regA, 0, 1), (none, 1, 2), (some regB, 3, 1)]

/-- C7 (code bug): for the component space with a 2-word gap between two
read-write registers, the READ case does get the when-others branch and
reading inside the gap (offset 1) clears success — but the UPDATE case, built
from the gap-ignoring items() enumeration, emits no when-others branch even
though the space contains a gap, contradicting the claimed if-and-only-if
(the dead not-obj test in _updatewhenlines shows gaps were meant to count). -/
theorem c7_update_others_misses_gaps :
    (readwhenlines gapComponentSpace).2 = true ∧
    regfileReadSuccess gapComponentSpace 1 = some false ∧
    (updatewhenlines gapComponentSpace).2 = false := by decide

/-! ## Bit-slice arithmetic lemmas -/

theorem extractBits_eq_mod_div (x off wd : Nat) :
    extractBits x off wd = x % 2 ^ (off + wd) / 2 ^ off := by
  unfold extractBits
  rw [pow_add, Nat.mod_mul_right_div_self]

theorem extractBits_congr_mod {x y : Nat} (off wd : Nat)
    (h : x % 2 ^ (off + wd) = y % 2 ^ (off + wd)) :
    extractBits x off wd = extractBits y off wd := by
  rw [extractBits_eq_mod_div, extractBits_eq_mod_div, h]

/-- Reading back exactly the written slice returns the written value. -/
theorem extractBits_setSlice_self (x off wd v : Nat) (hv : v < 2 ^ wd) :
    extractBits (setSlice x off wd v) off wd = v := by
  unfold extractBits setSlice
  have hoff : 0 < 2 ^ off := Nat.pos_pow_of_pos off (by norm_num)
  have h1 : x % 2 ^ off + v * 2 ^ off + x / 2 ^ (off + wd) * 2 ^ (off + wd)
      = x % 2 ^ off + (v + x / 2 ^ (off + wd) * 2 ^ wd) * 2 ^ off := by
    rw [pow_add]; ring
  rw [h1, Nat.add_mul_div_right _ _ hoff, Nat.div_eq_of_lt (Nat.mod_lt _ hoff),
    Nat.zero_add, Nat.add_mul_mod_self_right, Nat.mod_eq_of_lt hv]

/-- The written slice leaves the bits below the write range unchanged. -/
theorem setSlice_mod_low (x off wd v : Nat) :
    setSlice x off wd v % 2 ^ off = x % 2 ^ off := by
  unfold setSlice
  have h1 : x % 2 ^ off + v * 2 ^ off + x / 2 ^ (off + wd) * 2 ^ (off + wd)
      = x % 2 ^ off + (v + x / 2 ^ (off + wd) * 2 ^ wd) * 2 ^ off := by
    rw [pow_add]; ring
  rw [h1, Nat.add_mul_mod_self_right]
  exact Nat.mod_mod_of_dvd _ dvd_rfl

/-- Extracting a range that lies entirely below the written range is
unaffected by the write. -/
theorem extractBits_setSlice_low (x off wd v off2 wd2 : Nat)
    (h : off2 + wd2 ≤ off) :
    extractBits (setSlice x off wd v) off2 wd2 = extractBits x off2 wd2 := by
  refine extractBits_congr_mod off2 wd2 ?_
  have hdvd : 2 ^ (off2 + wd2) ∣ 2 ^ off := pow_dvd_pow 2 h
  calc setSlice x off wd v % 2 ^ (off2 + wd2)
      = setSlice x off wd v % 2 ^ off % 2 ^ (off2 + wd2) :=
        (Nat.mod_mod_of_dvd _ hdvd).symm
    _ = x % 2 ^ off % 2 ^ (off2 + wd2) := by rw [setSlice_mod_low]
    _ = x % 2 ^ (off2 + wd2) := Nat.mod_mod_of_dvd _ hdvd

/-! ## C5: round-trip of the generated conversions

From vhdl.py, GenerateR2D (register_TO_DAT): the body starts from
ret := (others => '0'); for a complex register visit_Field assigns
ret(off+width-1 downto off) := STD_LOGIC_VECTOR(reg.identifier) per field —
reg there is the record type t_NAME, so the selected name resolves to the
field's value.  simpleRegister emits the same selected-name shape,
ret(width-1 downto 0) := STD_LOGIC_VECTOR(reg.identifier) (width 1:
ret(0) := reg.identifier), although its reg parameter has the register's
scalar subtype t_NAME: that selected name does not resolve, so the emitted
NAME_TO_DAT of every simple register is invalid VHDL.
From GenerateD2R (DAT_TO_register): a simple register returns
FMT(dat(width-1 downto 0)); a complex one builds the aggregate
(field => dat(off+width-1 downto off), ...). -/

/-- A field of a complex register as the conversion generators see it: bit
offset and bit width within the register. -/
structure FieldSpec where
  offset : Nat
  width : Nat
deriving DecidableEq

/-- A VHDL register object as the generated conversion bodies see it: the
scalar value of a simple register (whose t_NAME is a scalar/vector subtype)
or the record value of a complex register (one value per named field). -/
inductive VRegValue where
  | scalar (v : Nat)
  | record (fields : List (String × Nat))
deriving DecidableEq

/-- Evaluation of the selected name reg.ident: defined only when reg is a
record holding a field of that name; on a scalar it is invalid VHDL. -/
def selectField (reg : VRegValue) (ident : String) : Option Nat :=
  match reg with
  | .scalar _ => none
  | .record fields => (fields.find? (fun f => decide (f.1 = ident))).map (fun f => f.2)

/-- From GenerateR2D.simpleRegister: ret := 0;
ret(width-1 downto 0) := STD_LOGIC_VECTOR(reg.identifier).  The right-hand
side is the selected name reg.identifier on the scalar parameter
reg : t_NAME, so evaluation fails (none) for every simple register. -/
def regToDatSimple (width : Nat) (reg : VRegValue) (ident : String) : Option Nat :=
  (selectField reg ident).map (fun v => setSlice 0 0 width v)

/-- From GenerateD2R.simpleRegister: return FMT(dat(width-1 downto 0)). -/
def datToRegSimple (width dat : Nat) : Nat := extractBits dat 0 width

/-- From GenerateR2D.complexRegister / visit_Field: ret := 0 then one slice
assignment ret(offset+width-1 downto offset) := value per field in order. -/
def regToDatComplex (fields : List FieldSpec) (vals : List Nat) : Nat :=
  (fields.zip vals).foldl (fun ret fv => setSlice ret fv.1.offset fv.1.width fv.2) 0

/-- From GenerateD2R.complexRegister / visit_Field: the aggregate entry for
each field is dat(offset+width-1 downto offset). -/
def datToRegComplex (fields : List FieldSpec) (dat : Nat) : List Nat :=
  fields.map (fun f => extractBits dat f.offset f.width)

/-- Fields of a register's field-space in declaration order occupy disjoint
ascending bit ranges. -/
def FieldsDisjoint (fields : List FieldSpec) : Prop :=
  List.Pairwise (fun f g => f.offset + f.width ≤ g.offset) fields

instance (fields : List FieldSpec) : Decidable (FieldsDisjoint fields) :=
  List.instDecidablePairwise fields

theorem extractBits_foldl_setSlice_low (l : List (FieldSpec × Nat)) (r off wd : Nat)
    (h : ∀ fv ∈ l, off + wd ≤ fv.1.offset) :
    extractBits (l.foldl (fun ret fv => setSlice ret fv.1.offset fv.1.width fv.2) r) off wd
      = extractBits r off wd := by
  induction l generalizing r with
  | nil => rfl
  | cons fv l ih =>
    rw [List.foldl_cons, ih _ (fun x hx => h x (List.mem_cons_of_mem _ hx)),
      extractBits_setSlice_low _ _ _ _ _ _ (h fv (List.mem_cons_self _ _))]

theorem datToReg_regToDat_aux (fields : List FieldSpec) (vals : List Nat) (r : Nat)
    (hlen : fields.length = vals.length)
    (hb : ∀ p ∈ fields.zip vals, p.2 < 2 ^ p.1.width)
    (hd : FieldsDisjoint fields) :
    fields.map (fun f =>
      extractBits ((fields.zip vals).foldl
        (fun ret fv => setSlice ret fv.1.offset fv.1.width fv.2) r) f.offset f.width)
      = vals := by
  induction fields generalizing vals r with
  | nil =>
    cases vals with
    | nil => rfl
    | cons v vs => exact absurd hlen (by simp)
  | cons f fs ih =>
    cases vals with
    | nil => exact absurd hlen (by simp)
    | cons v vs =>
      have hd1 := (List.pairwise_cons.mp hd).1
      have hd2 := (List.pairwise_cons.mp hd).2
      simp only [List.zip_cons_cons, List.foldl_cons, List.map_cons]
      refine List.cons_eq_cons.mpr ⟨?_, ?_⟩
      · rw [extractBits_foldl_setSlice_low _ _ _ _
          (fun fv hfv => hd1 fv.1 (List.of_mem_zip hfv).1)]
        exact extractBits_setSlice_self _ _ _ _
          (hb (f, v) (by simp [List.zip_cons_cons]))
      · exact ih vs (setSlice r f.offset f.width v) (by simpa using hlen)
          (fun p hp => hb p (by simp [List.zip_cons_cons, hp])) hd2

/-- The complex-register conversions do round-trip: there reg really is a
record, register_TO_DAT writes each field value to its bit slice of a zeroed
word and DAT_TO_register extracts the same slices, the identity on every
per-field value vector bounded by the field widths over disjoint ascending
field ranges (the field-space invariant). -/
theorem datToReg_regToDat_complex (fields : List FieldSpec) (vals : List Nat)
    (hlen : fields.length = vals.length)
    (hb : ∀ p ∈ fields.zip vals, p.2 < 2 ^ p.1.width)
    (hd : FieldsDisjoint fields) :
    datToRegComplex fields (regToDatComplex fields vals) = vals :=
  datToReg_regToDat_aux fields vals 0 hlen hb hd

/-- The CTRL register of the §8 scenario: field MODE, 4 bits at offset 0, and
field ENABLE, 1 bit at offset 8. -/
def ctrlFields : List FieldSpec := [⟨0, 4⟩, ⟨8, 1⟩]

/-- C5 (code bug): the claimed round trip fails for every simple register —
GenerateR2D.simpleRegister emits ret(width-1 downto 0) :=
STD_LOGIC_VECTOR(reg.identifier), a selected name on the scalar t_NAME
parameter, which does not resolve, so NAME_TO_DAT produces no word at all and
its composition with DAT_TO_NAME cannot return the original value: shown at
the 32-bit register CTRL holding 305419896, and for every simple-register
value and identifier.  The intent is ret := reg itself, as the complex path
shows: there reg is a record, the selected names resolve, and the CTRL
scenario record with MODE = 5, ENABLE = 1 round-trips unchanged. -/
theorem c5_simple_reg_to_dat_ill_formed :
    selectField (VRegValue.scalar 305419896) "CTRL" = none ∧
    regToDatSimple 32 (VRegValue.scalar 305419896) "CTRL" = none ∧
    (∀ width v ident,
      (regToDatSimple width (VRegValue.scalar v) ident).map (datToRegSimple width)
        = none) ∧
    datToRegComplex ctrlFields (regToDatComplex ctrlFields [5, 1]) = [5, 1] :=
  ⟨rfl, rfl, fun _ _ _ => rfl, by decide⟩

/-! ## Identifier legalization (C3, C8)

From vhdl.py, class FixReservedWords: character classes and reserved words
from the 2008 LRM as listed in the source, the invalidvhdl name sanitizer,
the defaultvisit recursion and the visit_Enum no-op. -/

/-- FixReservedWords.uppercase. -/
def uppercase : List Char :=
  "ABCDEFGHIJKLMNOPQRSTUVWXYZÀÁÂÃÄÅÆÇÈÉÊËÌÍÎÏÐÑÒÓÔÕÖØÙÚÛÜÝÞ".data

/-- FixReservedWords.lowercase. -/
def lowercase : List Char :=
  "abcdefghijklmnopqrstuvwxyzßàáâãäåæçèéêëìíîïðñòóôõöøùúûüýþÿ".data

/-- FixReservedWords.letters. -/
def letters : List Char := uppercase ++ lowercase

/-- FixReservedWords.word_chars. -/
def word_chars : List Char := letters ++ "0123456789_".data

/-- FixReservedWords.reserved_words (2008 LRM §15.10), in source order. -/
def reserved_words : List String :=
  [ "abs", "fairness", "nand", "select",
    "access", "file", "new", "sequence",
    "after", "for", "next", "severity",
    "alias", "force", "nor", "signal",
    "all", "function", "not", "shared",
    "and", "null", "sla",
    "architecture", "generate", "sll",
    "array", "generic", "of", "sra",
    "assert", "group", "on", "srl",
    "assume", "guarded", "open", "strong",
    "assume_guarantee", "or", "subtype",
    "attribute", "if", "others",
    "impure", "out", "then",
    "begin", "in", "to",
    "block", "inertial", "package", "transport",
    "body", "inout", "parameter", "type",
    "buffer", "is", "port",
    "bus", "postponed", "unaffected",
    "label", "procedure", "units",
    "case", "library", "process", "until",
    "component", "linkage", "property", "use",
    "configuration", "literal", "protected",
    "constant", "loop", "pure", "variable",
    "context", "vmode",
    "cover", "map", "range", "vprop",
    "mod", "record", "vunit",
    "default", "register",
    "disconnect", "reject", "wait",
    "downto", "release", "when",
    "rem", "while",
    "else", "report", "with",
    "elsif", "restrict",
    "end", "restrict_guarantee", "xnor",
    "entity", "return", "xor",
    "exit", "rol",
    "ror" ]

/-- The per-character step of invalidvhdl's loop: a character outside
word_chars is replaced by an underscore. -/
def replChar (c : Char) : Char := if c ∈ word_chars then c else '_'

/-- Python's str.lower as used by defaultvisit's reserved-word test; the
reserved words are all ASCII, for which per-character lowercasing coincides
with Python's. -/
def strLower (s : String) : String := ⟨s.data.map Char.toLower⟩

/-- From FixReservedWords.invalidvhdl.  The source takes the first character
with next (an empty name raises StopIteration) and raises for a first
character that is not a letter; otherwise it rebuilds the name replacing each
later character outside word_chars by an underscore, and if the (possibly
replaced) last character is an underscore appends _0; it returns the new name
when anything changed and None otherwise.  Raised exceptions are modelled as
error. -/
def invalidvhdl (name : String) : Except Unit (Option String) :=
  match name.data with
  | [] => .error ()
  | first :: rest =>
    if first ∈ letters then
      let newchars := first :: rest.map replChar
      let changed := rest.any (fun c => decide (c ∉ word_chars))
      if newchars.getLastD 'A' = '_' then .ok (some ⟨newchars ++ ['_', '0']⟩)
      else if changed then .ok (some ⟨newchars⟩) else .ok none
    else .error ()

mutual
/-- An entity node as FixReservedWords sees it: the lowercased class name
(kind), the name, the identifier attribute, and the children. -/
inductive VNode : Type where
  | mk : String → String → String → VForest → VNode
deriving DecidableEq
/-- A sequence of sibling entity nodes, in declaration order. -/
inductive VForest : Type where
  | nil : VForest
  | cons : VNode → VForest → VForest
deriving DecidableEq
end

/-- A change record (type, old qualified name, new qualified name). -/
abbrev Change := String × String × String

/-- From FixReservedWords.defaultvisit: child change records are prefixed
with the parent's old and new names, dotted. -/
def prefixChanges (oldname newname : String) (l : List Change) : List Change :=
  l.map (fun c => (c.1, oldname ++ "." ++ c.2.1, newname ++ "." ++ c.2.2))

mutual
/-- From FixReservedWords.defaultvisit and visit_Enum.  Enum nodes are
returned untouched with no changes.  Otherwise: a name invalidvhdl rewrites
becomes both name and identifier with one kind-name change record; else a
reserved-word name keeps the name but gets identifier name_0 with one
kind-identifier change record; else identifier := name with no record.
Children are swept and their changes appended, prefixed with the parent's old
and new names. -/
def fixNode : VNode → Except Unit (VNode × List Change)
  | .mk kind name ident children =>
    if kind = "enum" then .ok (.mk kind name ident children, [])
    else
      match invalidvhdl name with
      | .error e => .error e
      | .ok r =>
        match fixForest children with
        | .error e => .error e
        | .ok (children2, childChanges) =>
          match r with
          | some newname =>
            .ok (.mk kind newname newname children2,
              (kind ++ " name", name, newname) ::
                prefixChanges name newname childChanges)
          | none =>
            if strLower name ∈ reserved_words then
              .ok (.mk kind name (name ++ "_0") children2,
                (kind ++ " identifier", name, name ++ "_0") ::
                  prefixChanges name (name ++ "_0") childChanges)
            else
              .ok (.mk kind name name children2,
                prefixChanges name name childChanges)

/-- Sweep a sequence of siblings in order, concatenating their changes, per
Visitor.visitchildren as used by defaultvisit. -/
def fixForest : VForest → Except Unit (VForest × List Change)
  | .nil => .ok (.nil, [])
  | .cons n f =>
    match fixNode n with
    | .error e => .error e
    | .ok (n2, ch1) =>
      match fixForest f with
      | .error e => .error e
      | .ok (f2, ch2) => .ok (.cons n2 f2, ch1 ++ ch2)
end

mutual
/-- A node all of whose non-Enum names invalidvhdl accepts unchanged. -/
def nodeStable : VNode → Bool
  | .mk kind name _ children =>
    if kind = "enum" then true
    else
      match invalidvhdl name with
      | .ok none => forestStable children
      | _ => false
def forestStable : VForest → Bool
  | .nil => true
  | .cons n f => nodeStable n && forestStable f
end

mutual
/-- Whether some non-Enum node of the tree has a reserved-word name. -/
def nodeHasReserved : VNode → Bool
  | .mk kind name _ children =>
    if kind = "enum" then false
    else decide (strLower name ∈ reserved_words) || forestHasReserved children
def forestHasReserved : VForest → Bool
  | .nil => false
  | .cons n f => nodeHasReserved n || forestHasReserved f
end

deriving instance DecidableEq for Except

/-! ### Character-class helper lemmas -/

theorem replChar_mem_word_chars (c : Char) : replChar c ∈ word_chars := by
  unfold replChar
  split
  · assumption
  · decide

theorem map_replChar_of_mem {l : List Char} (h : ∀ c ∈ l, c ∈ word_chars) :
    l.map replChar = l := by
  induction l with
  | nil => rfl
  | cons c l ih =>
    rw [List.map_cons, ih (fun x hx => h x (List.mem_cons_of_mem _ hx))]
    have hc : replChar c = c := by
      unfold replChar
      exact if_pos (h c (List.mem_cons_self _ _))
    rw [hc]

theorem any_notin_word_chars_eq_false {l : List Char}
    (h : ∀ c ∈ l, c ∈ word_chars) :
    (l.any (fun c => decide (c ∉ word_chars))) = false := by
  rw [List.any_eq_false]
  intro c hc
  simp [h c hc]

/-- Stability of the sanitizer: a name invalidvhdl rewrites is itself
accepted unchanged on a second run. -/
theorem invalidvhdl_stable {name m : String}
    (h : invalidvhdl name = .ok (some m)) : invalidvhdl m = .ok none := by
  unfold invalidvhdl at h
  rcases hd : name.data with _ | ⟨first, rest⟩ <;> rw [hd] at h <;> simp only [] at h
  · exact absurd h (by simp)
  by_cases hfirst : first ∈ letters
  · rw [if_pos hfirst] at h
    have hmem : ∀ c ∈ rest.map replChar, c ∈ word_chars := by
      intro c hc
      obtain ⟨x, _, hx⟩ := List.mem_map.mp hc
      exact hx ▸ replChar_mem_word_chars x
    by_cases hlast : (first :: rest.map replChar).getLastD 'A' = '_'
    · rw [if_pos hlast] at h
      obtain hm : m = ⟨(first :: rest.map replChar) ++ ['_', '0']⟩ := by
        cases h; rfl
      subst hm
      show invalidvhdl ⟨first :: (rest.map replChar ++ ['_', '0'])⟩ = .ok none
      unfold invalidvhdl
      have hmem2 : ∀ c ∈ rest.map replChar ++ ['_', '0'], c ∈ word_chars := by
        intro c hc
        rcases List.mem_append.mp hc with hc | hc
        · exact hmem c hc
        · have hc2 : c = '_' ∨ c = '0' := by simpa using hc
          rcases hc2 with hc2 | hc2 <;> rw [hc2] <;> decide
      simp only [String.data]
      rw [if_pos hfirst, map_replChar_of_mem hmem2,
        any_notin_word_chars_eq_false hmem2]
      have h0 : (first :: (rest.map replChar ++ ['_', '0'])).getLastD 'A' = '0' := by
        rw [List.getLastD_cons]
        have : rest.map replChar ++ ['_', '0'] = (rest.map replChar ++ ['_']) ++ ['0'] := by
          simp
        rw [this, List.getLastD_concat]
      rw [h0]
      simp
    · rw [if_neg hlast] at h
      by_cases hch : (rest.any (fun c => decide (c ∉ word_chars))) = true
      · rw [if_pos hch] at h
        obtain hm : m = ⟨first :: rest.map replChar⟩ := by cases h; rfl
        subst hm
        show invalidvhdl ⟨first :: rest.map replChar⟩ = .ok none
        unfold invalidvhdl
        simp only [String.data]
        rw [if_pos hfirst, map_replChar_of_mem hmem,
          any_notin_word_chars_eq_false hmem, if_neg hlast]
        simp
      · rw [if_neg hch] at h
        exact absurd h (by simp)
  · rw [if_neg hfirst] at h
    exact absurd h (by simp)

/-! ### The legalization pass stabilizes names after one run -/

mutual
theorem fixNode_stable : ∀ n n2 ch, fixNode n = .ok (n2, ch) → nodeStable n2 = true
  | .mk kind name ident children, n2, ch, h => by
    unfold fixNode at h
    by_cases hk : kind = "enum"
    · rw [if_pos hk] at h
      simp only [Except.ok.injEq, Prod.mk.injEq] at h
      obtain ⟨rfl, rfl⟩ := h
      unfold nodeStable
      rw [if_pos hk]
    · rw [if_neg hk] at h
      rcases hiv : invalidvhdl name with e | r <;> rw [hiv] at h <;> simp only [] at h
      · exact absurd h (by simp)
      rcases hff : fixForest children with e | ⟨children2, cch⟩ <;>
        rw [hff] at h <;> simp only [] at h
      · exact absurd h (by simp)
      have hst := fixForest_stable children children2 cch hff
      rcases r with _ | newname <;> simp only [] at h
      · by_cases hres : strLower name ∈ reserved_words
        · rw [if_pos hres] at h
          simp only [Except.ok.injEq, Prod.mk.injEq] at h
          obtain ⟨rfl, rfl⟩ := h
          unfold nodeStable
          rw [if_neg hk, hiv]
          exact hst
        · rw [if_neg hres] at h
          simp only [Except.ok.injEq, Prod.mk.injEq] at h
          obtain ⟨rfl, rfl⟩ := h
          unfold nodeStable
          rw [if_neg hk, hiv]
          exact hst
      · simp only [Except.ok.injEq, Prod.mk.injEq] at h
        obtain ⟨rfl, rfl⟩ := h
        unfold nodeStable
        rw [if_neg hk, invalidvhdl_stable hiv]
        exact hst

theorem fixForest_stable : ∀ f f2 ch, fixForest f = .ok (f2, ch) → forestStable f2 = true
  | .nil, f2, ch, h => by
    unfold fixForest at h
    simp only [Except.ok.injEq, Prod.mk.injEq] at h
    obtain ⟨rfl, rfl⟩ := h
    rfl
  | .cons n f, f2, ch, h => by
    unfold fixForest at h
    rcases hn : fixNode n with e | ⟨n2, ch1⟩ <;> rw [hn] at h <;> simp only [] at h
    · exact absurd h (by simp)
    rcases hf : fixForest f with e | ⟨f2x, ch2⟩ <;> rw [hf] at h <;> simp only [] at h
    · exact absurd h (by simp)
    simp only [Except.ok.injEq, Prod.mk.injEq] at h
    obtain ⟨rfl, rfl⟩ := h
    unfold forestStable
    rw [fixNode_stable n n2 ch1 hn, fixForest_stable f f2x ch2 hf]
    rfl
end

/-! ### A second run on a stabilized tree: the change log is empty exactly
when no reserved-word name remains -/

mutual
theorem fixNode_of_stable : ∀ n, nodeStable n = true →
    ∃ n2 ch, fixNode n = .ok (n2, ch) ∧ (ch = [] ↔ nodeHasReserved n = false)
  | .mk kind name ident children, h => by
    unfold nodeStable at h
    unfold fixNode nodeHasReserved
    by_cases hk : kind = "enum"
    · simp only [if_pos hk] at h ⊢
      exact ⟨.mk kind name ident children, [], rfl, by simp⟩
    · simp only [if_neg hk] at h ⊢
      rcases hiv : invalidvhdl name with e | r <;> rw [hiv] at h
      · simp only [] at h
        exact absurd h (by simp)
      rcases r with _ | newname <;> simp only [] at h
      · obtain ⟨f2, cch, hff, hiff⟩ := fixForest_of_stable children h
        rw [hff]
        simp only []
        by_cases hres : strLower name ∈ reserved_words
        · simp only [if_pos hres]
          refine ⟨_, _, rfl, ?_⟩
          simp [hres]
        · simp only [if_neg hres]
          refine ⟨_, _, rfl, ?_⟩
          simp only [prefixChanges, List.map_eq_nil_iff, decide_eq_false hres,
            Bool.false_or]
          exact hiff
      · exact absurd h (by simp)

theorem fixForest_of_stable : ∀ f, forestStable f = true →
    ∃ f2 ch, fixForest f = .ok (f2, ch) ∧ (ch = [] ↔ forestHasReserved f = false)
  | .nil, _ => ⟨.nil, [], rfl, by simp [forestHasReserved]⟩
  | .cons n f, h => by
    unfold forestStable at h
    rw [Bool.and_eq_true] at h
    obtain ⟨n2, ch1, hn, hiff1⟩ := fixNode_of_stable n h.1
    obtain ⟨f2, ch2, hf, hiff2⟩ := fixForest_of_stable f h.2
    refine ⟨.cons n2 f2, ch1 ++ ch2, ?_, ?_⟩
    · unfold fixForest
      rw [hn, hf]
    · unfold forestHasReserved
      rw [List.append_eq_nil]
      constructor
      · intro hx
        simp [hiff1.mp hx.1, hiff2.mp hx.2]
      · intro hx
        have hx2 : nodeHasReserved n = false ∧ forestHasReserved f = false := by
          constructor <;> revert hx <;> cases nodeHasReserved n <;>
            cases forestHasReserved f <;> simp
        exact ⟨hiff1.mpr hx2.1, hiff2.mpr hx2.2⟩
end

/-! ### C3: legalization is not change-log idempotent -/

/-- A single register node named with the reserved word out. -/
def outNode : VNode := .mk "register" "out" "" .nil

/-- The same node after one legalization run: the name is untouched, the
identifier is out_0. -/
def outNodeFixed : VNode := .mk "register" "out" "out_0" .nil

/-- C3 counterexample: legalizing a register named out records the identifier
rename; running the pass again immediately on the result records exactly the
same change once more, so the second change log is not empty as claimed — the
reserved-word branch of defaultvisit keeps node.name unchanged, so every
later run re-reports it. -/
theorem c3_counterexample_second_log_nonempty :
    fixNode outNode =
      .ok (outNodeFixed, [("register identifier", "out", "out_0")]) ∧
    fixNode outNodeFixed =
      .ok (outNodeFixed, [("register identifier", "out", "out_0")]) ∧
    ([("register identifier", "out", "out_0")] : List Change) ≠ [] := by
  refine ⟨by decide, by decide, by simp⟩

/-- C3 amended: after one legalization run the tree's names are stable, and a
second run succeeds with a change log that is empty if and only if the tree
holds no non-Enum node whose (post-run) name is a reserved word; reserved-word
identifier renames are re-reported by every run, all other changes are not. -/
theorem c3_amended_second_log_iff_reserved (t t1 : VNode) (ch1 : List Change)
    (h : fixNode t = .ok (t1, ch1)) :
    ∃ t2 ch2, fixNode t1 = .ok (t2, ch2) ∧
      (ch2 = [] ↔ nodeHasReserved t1 = false) :=
  fixNode_of_stable t1 (fixNode_stable t t1 ch1 h)

/-- C3 amended witness: instantiating the amended theorem on the legalized
register named out. -/
theorem c3_amended_second_log_iff_reserved_witness :
    ∃ t2 ch2, fixNode outNodeFixed = .ok (t2, ch2) ∧
      (ch2 = [] ↔ nodeHasReserved outNodeFixed = false) :=
  c3_amended_second_log_iff_reserved outNode outNodeFixed
    [("register identifier", "out", "out_0")] (by decide)

/-! ### C8: legalization of a single invalid or reserved name -/

/-- The sanitized variant invalidvhdl produces: later characters outside
word_chars become underscores and, if the resulting last character is an
underscore, _0 is appended. -/
def sanitizeName (first : Char) (rest : List Char) : String :=
  if (first :: rest.map replChar).getLastD 'A' = '_' then
    ⟨(first :: rest.map replChar) ++ ['_', '0']⟩
  else ⟨first :: rest.map replChar⟩

/-- On a name whose first character is a letter but which has an illegal
later character or a trailing underscore, invalidvhdl returns the sanitized
variant. -/
theorem invalidvhdl_eq_sanitize (first : Char) (rest : List Char)
    (hfirst : first ∈ letters)
    (hbad : rest.any (fun c => decide (c ∉ word_chars)) = true ∨
      (first :: rest.map replChar).getLastD 'A' = '_') :
    invalidvhdl ⟨first :: rest⟩ = .ok (some (sanitizeName first rest)) := by
  unfold invalidvhdl sanitizeName
  simp only [String.data]
  rw [if_pos hfirst]
  by_cases hlast : (first :: rest.map replChar).getLastD 'A' = '_'
  · rw [if_pos hlast, if_pos hlast]
  · rw [if_neg hlast, if_neg hlast]
    rcases hbad with hbad | hbad
    · rw [hbad]
      simp
    · exact absurd hbad hlast

/-- C8 counterexample: a register whose name starts with a digit — an invalid
first character, one of the invalid-name cases the claim covers — is not
given a sanitized variant with one recorded change: defaultvisit raises
instead (invalidvhdl raises for a non-letter first character), aborting the
pass. -/
theorem c8_counterexample_invalid_first_char :
    fixNode (.mk "register" "2x" "" .nil) = .error () := by decide

/-- C8 amended: for a non-Enum entity whose name starts with a valid letter:
if the name has an illegal later character or a trailing underscore, the pass
renames it to the sanitized variant (illegal characters replaced by
underscores, a trailing underscore resolved by appending _0), sets the
identifier to it, and records exactly one change with old and new names; if
instead the name is valid but equals a reserved word, the identifier becomes
name_0 and exactly one change records old and new names.  A name with an
invalid first character makes the pass fail with an error instead of being
sanitized. -/
theorem c8_amended_sanitize_and_reserved (kind name ident : String)
    (first : Char) (rest : List Char) (hk : kind ≠ "enum")
    (hname : name = ⟨first :: rest⟩) (hfirst : first ∈ letters) :
    ((rest.any (fun c => decide (c ∉ word_chars)) = true ∨
        (first :: rest.map replChar).getLastD 'A' = '_') →
      fixNode (.mk kind name ident .nil) =
        .ok (.mk kind (sanitizeName first rest) (sanitizeName first rest) .nil,
          [(kind ++ " name", name, sanitizeName first rest)])) ∧
    (invalidvhdl name = .ok none → strLower name ∈ reserved_words →
      fixNode (.mk kind name ident .nil) =
        .ok (.mk kind name (name ++ "_0") .nil,
          [(kind ++ " identifier", name, name ++ "_0")])) := by
  constructor
  · intro hbad
    have hiv := invalidvhdl_eq_sanitize first rest hfirst hbad
    rw [← hname] at hiv
    unfold fixNode
    rw [if_neg hk, hiv]
    rfl
  · intro hiv hres
    unfold fixNode
    rw [if_neg hk, hiv]
    simp only [fixForest]
    rw [if_pos hres]
    rfl

/-- C8 amended witness: the register named fo%o_ (illegal percent character
and a trailing underscore after replacement) is renamed to its sanitized
variant with one change record, and the register named out (a reserved word)
keeps its name, gets identifier out_0, and one change record. -/
theorem c8_amended_sanitize_and_reserved_witness :
    fixNode (.mk "register" "fo%o_" "" .nil) =
      .ok (.mk "register" (sanitizeName 'f' "o%o_".data)
          (sanitizeName 'f' "o%o_".data) .nil,
        [("register name", "fo%o_", sanitizeName 'f' "o%o_".data)]) ∧
    fixNode (.mk "register" "out" "" .nil) =
      .ok (.mk "register" "out" "out_0" .nil,
        [("register identifier", "out", "out_0")]) :=
  ⟨(c8_amended_sanitize_and_reserved "register" "fo%o_" "" 'f' "o%o_".data
      (by decide) (by decide) (by decide)).1 (Or.inl (by decide)),
   (c8_amended_sanitize_and_reserved "register" "out" "" 'o' "ut".data
      (by decide) (by decide) (by decide)).2 (by decide) (by decide)⟩

/-! ## C header generation (C6, C9, C10)

From component_to_c.py.  Output there is written by print statements straight
to the output stream handed in by main (a file or stdout); the embedding
threads that stream as a list of already-written lines.  Emitted text is
abbreviated to its distinguishing parts; the order of writes and the failure
points follow the source. -/

/-- From OutputterError: description plus the offending entity (its name
stands in for the HtiElement). -/
structure OutputterError where
  message : String
  entity : String
deriving DecidableEq

/-- A register as the C generator sees it: name, word size, storage class
and whether the format is signed. -/
structure CRegister where
  name : String
  size : Nat
  readOnly : Bool
  writeOnly : Bool
  signedFormat : Bool
deriving DecidableEq

/-- From register_format in component_to_c.py: storage qualifier by storage
class, then int32_t for signed and uint32_t otherwise. -/
def c_register_format (r : CRegister) : String :=
  (if r.readOnly then "__I " else if r.writeOnly then "__O " else "__IO") ++
  (if r.signedFormat then " int32_t" else " uint32_t")

/-- From generate_register_struct: a register of word size other than 1
raises OutputterError carrying the register; otherwise its struct member
line is produced. -/
def generate_register_struct (indent : String) (r : CRegister) :
    Except OutputterError String :=
  if r.size ≠ 1 then
    .error ⟨"Dont know how to deal with register sizes other than 1.", r.name⟩
  else
    .ok (indent ++ c_register_format r ++ " " ++ r.name ++ ";")

/-- A component's register space for the C generator: registers or gaps with
position and size, as iterated by generate_struct_innards. -/
abbrev CSpace := List (Option CRegister × Nat × Nat)

/-- From generate_struct_innards: each gap word prints a reserved uint32_t
member, each register prints its struct member; the lines go straight to the
output, so a failing register aborts with everything before it written. -/
def generate_struct_innards (s : CSpace) (indent : String) (out : List String) :
    List String × Option OutputterError :=
  match s with
  | [] => (out, none)
  | (none, pos, size) :: rest =>
    generate_struct_innards rest indent
      (out ++ (List.range size).map
        (fun i => indent ++ "__I  uint32_t rsvd" ++ toString (pos + i) ++ ";"))
  | (some r, _, _) :: rest =>
    match generate_register_struct indent r with
    | .error e => (out, some e)
    | .ok line => generate_struct_innards rest indent (out ++ [line])

/-- The fixed lines generate_single_component prints before the struct
members: the header comment block, then for a standalone file the include
guard and storage-class definitions, then the typedef struct opener. -/
def componentPrelude (name source : String) (standalone : Bool) : List String :=
  (name ++ " Register Map header comment") ::
  ((if standalone then ["ifndef " ++ source, "storage class definitions"]
    else []) ++
   ["typedef struct \x7b"])

/-- From generate_single_component: print the header comment, for a
standalone file the include guard and storage-class definitions, the typedef
struct filled by generate_struct_innards, then the closing typedef line and
for a standalone file the endif footer.  Every print goes directly to the
output stream main passes in; an OutputterError from a register stops
generation at that point with everything before it already written.  (The
registers here own no fields, so generate_bitfields prints nothing.) -/
def generate_single_component (name source : String) (s : CSpace)
    (standalone : Bool) (out : List String) :
    List String × Option OutputterError :=
  match generate_struct_innards s "    "
      (out ++ componentPrelude name source standalone) with
  | (out2, some e) => (out2, some e)
  | (out2, none) =>
    (out2 ++ ["\x7d t_" ++ name ++ ";"] ++ (if standalone then ["endif"] else []),
     none)

/-- The output of generate_struct_innards only extends what was already
written. -/
theorem generate_struct_innards_extends (s : CSpace) (indent : String)
    (out : List String) :
    ∃ t, (generate_struct_innards s indent out).1 = out ++ t := by
  induction s generalizing out with
  | nil => exact ⟨[], by simp [generate_struct_innards]⟩
  | cons it rest ih =>
    rcases it with ⟨_ | r, pos, size⟩
    · obtain ⟨t, ht⟩ := ih (out ++ (List.range size).map
        (fun i => indent ++ "__I  uint32_t rsvd" ++ toString (pos + i) ++ ";"))
      exact ⟨_, by rw [generate_struct_innards, ht, List.append_assoc]⟩
    · unfold generate_struct_innards
      rcases hr : generate_register_struct indent r with e | line
      · exact ⟨[], by simp⟩
      · obtain ⟨t, ht⟩ := ih (out ++ [line])
        exact ⟨_, by rw [ht, List.append_assoc]⟩

/-- Whatever happens — success or failure — the lines
generate_single_component leaves in the output start with everything already
there followed by the header comment: printed text is never retracted. -/
theorem generate_single_component_extends (name source : String) (s : CSpace)
    (st : Bool) (out : List String) :
    ∃ t, (generate_single_component name source s st out).1
      = out ++ (name ++ " Register Map header comment") :: t := by
  unfold generate_single_component
  obtain ⟨t0, ht0⟩ := generate_struct_innards_extends s "    "
    (out ++ componentPrelude name source st)
  rcases hgen : generate_struct_innards s "    "
      (out ++ componentPrelude name source st) with ⟨out2, e⟩
  rw [hgen] at ht0
  simp only at ht0
  rcases e with _ | e
  · refine ⟨((if st then ["ifndef " ++ source, "storage class definitions"]
      else []) ++ ["typedef struct \x7b"]) ++ t0 ++ ["\x7d t_" ++ name ++ ";"] ++
      (if st then ["endif"] else []), ?_⟩
    simp only [ht0, componentPrelude]
    simp
  · refine ⟨((if st then ["ifndef " ++ source, "storage class definitions"]
      else []) ++ ["typedef struct \x7b"]) ++ t0, ?_⟩
    simp only [ht0, componentPrelude]
    simp

/-- The register CTRL of the C6 counterexample component. -/
def ctrlReg : CRegister := ⟨"CTRL", 1, false, false, false⟩

/-- The offending 2-word register of the C6 counterexample. -/
def bigReg : CRegister := ⟨"BIG", 2, false, false, false⟩

/-- The C6 counterexample component space: CTRL then the 2-word BIG. -/
def demoCSpace : CSpace := [(some ctrlReg, 0, 1), (some bigReg, 1, 2)]

/-- C6 counterexample: generating the demo component fails with the
OutputterError for BIG while five lines of the artifact — the header
comment, the include guard block and the CTRL member — have already reached
the output sink, refuting the claim that the artifact text is assembled in a
buffer and flushed only on success. -/
theorem c6_counterexample_partial_output :
    generate_single_component "DEMO" "DEMO_H" demoCSpace true [] =
      (["DEMO Register Map header comment", "ifndef DEMO_H",
        "storage class definitions", "typedef struct \x7b",
        "    __IO uint32_t CTRL;"],
       some ⟨"Dont know how to deal with register sizes other than 1.", "BIG"⟩) ∧
    (["DEMO Register Map header comment", "ifndef DEMO_H",
      "storage class definitions", "typedef struct \x7b",
      "    __IO uint32_t CTRL;"] : List String) ≠ [] := by
  refine ⟨by decide, by simp⟩

/-- C6 amended: output is written incrementally to the sink, so when
generation of an artifact fails the text printed before the failure — at
least the leading header comment — has already reached the output; nothing
is buffered per artifact or rolled back on failure. -/
theorem c6_amended_failure_leaves_partial_output (name source : String)
    (s : CSpace) (standalone : Bool)
    (h : (generate_single_component name source s standalone []).2.isSome = true) :
    (generate_single_component name source s standalone []).1 ≠ [] := by
  obtain ⟨t, ht⟩ := generate_single_component_extends name source s standalone []
  rw [ht]
  simp

/-- C6 amended witness: the demo component fails and its partial artifact is
in the output. -/
theorem c6_amended_witness :
    (generate_single_component "DEMO" "DEMO_H" demoCSpace true []).1 ≠ [] :=
  c6_amended_failure_leaves_partial_output "DEMO" "DEMO_H" demoCSpace true
    (by decide)

/-! ## C9: unsupported shapes fail the artifact, the loop proceeds -/

/-- A memory-map child as generate_array_peripherals sees it: an Instance
with its bound component's name, or a node of some other kind. -/
inductive MapChild where
  | inst (name : String) (binding : String)
  | other (name : String)
deriving DecidableEq

/-- The isinstance(children[0], Instance) test of the source. -/
def MapChild.isInst : MapChild → Bool
  | .inst _ _ => true
  | .other _ => false

/-- The child's name. -/
def MapChild.cname : MapChild → String
  | .inst n _ => n
  | .other n => n

/-- The bound component's name (empty for a non-Instance, never reached by
the source past its isinstance guard). -/
def MapChild.bindingName : MapChild → String
  | .inst _ b => b
  | .other _ => ""

/-- From generate_array_peripherals: an instance array wrapping more than one
child, or one whose first child is not an Instance, raises OutputterError
naming the array; otherwise the single pointer-array definition line is
produced.  (An empty child list raises an IndexError at children[0] in the
source, modelled as a distinct error.) -/
def generate_array_peripherals (basename arrayname : String)
    (children : List MapChild) (count : Nat) :
    Except OutputterError (List String) :=
  match children with
  | [] => .error ⟨"IndexError", arrayname⟩
  | c0 :: rest =>
    if (c0 :: rest).length > 1 ∨ c0.isInst = false then
      .error ⟨"Instance Arrays allowed only for single Instances, not groups.",
        arrayname⟩
    else
      .ok ["static t_" ++ c0.bindingName ++ " * const " ++
        basename ++ "_" ++ c0.cname ++ "[" ++ toString count ++ "] = (t_" ++
        c0.bindingName ++ " *)" ++ basename ++ "_" ++ c0.cname ++ "_BASE;"]

/-- From main's loop over components: each component is rendered into its
own output stream inside a try block whose except arms log the failure and
fall through to the next iteration, so the batch result is exactly the map
of the per-artifact generator over the component list. -/
def processComponents (comps : List (String × String × CSpace)) :
    List (List String × Option OutputterError) :=
  comps.map (fun c => generate_single_component c.1 c.2.1 c.2.2 true [])

/-- C9: a register of word size other than 1 makes the C struct generator
fail with an OutputterError carrying the offending register; an instance
array wrapping more than one child or a non-Instance child makes the
peripheral generator fail with an OutputterError carrying the array; and the
driving loop is elementwise — artifacts before and after a failing one are
generated exactly as if it were absent, so a per-artifact failure never
aborts the batch. -/
theorem c9_unsupported_shape_is_per_artifact :
    (∀ indent r, r.size ≠ 1 →
      generate_register_struct indent r =
        .error ⟨"Dont know how to deal with register sizes other than 1.",
          r.name⟩) ∧
    (∀ basename arrayname c0 rest count,
      (c0 :: rest).length > 1 ∨ MapChild.isInst c0 = false →
      generate_array_peripherals basename arrayname (c0 :: rest) count =
        .error ⟨"Instance Arrays allowed only for single Instances, not groups.",
          arrayname⟩) ∧
    (∀ xs y zs, processComponents (xs ++ y :: zs) =
      processComponents xs ++
        generate_single_component y.1 y.2.1 y.2.2 true [] ::
          processComponents zs) := by
  refine ⟨?_, ?_, ?_⟩
  · intro indent r hr
    unfold generate_register_struct
    rw [if_pos hr]
  · intro basename arrayname c0 rest count h
    unfold generate_array_peripherals
    simp only []
    rw [if_pos h]
  · intro xs y zs
    simp [processComponents]

/-- C9 witness: the 2-word register BIG fails with its own error, an
instance array around a non-Instance child fails with the array's error, and
a batch of three components resolves elementwise around the failing DEMO
component. -/
theorem c9_unsupported_shape_is_per_artifact_witness :
    generate_register_struct "    " bigReg =
      .error ⟨"Dont know how to deal with register sizes other than 1.",
        "BIG"⟩ ∧
    generate_array_peripherals "MAP" "ARR" [.other "X"] 4 =
      .error ⟨"Instance Arrays allowed only for single Instances, not groups.",
        "ARR"⟩ ∧
    processComponents ([("A", "A_H", [])] ++
        ("DEMO", "DEMO_H", demoCSpace) :: [("B", "B_H", [])]) =
      processComponents [("A", "A_H", [])] ++
        generate_single_component "DEMO" "DEMO_H" demoCSpace true [] ::
          processComponents [("B", "B_H", [])] :=
  ⟨c9_unsupported_shape_is_per_artifact.1 "    " bigReg (by decide),
   c9_unsupported_shape_is_per_artifact.2.1 "MAP" "ARR" (.other "X") [] 4
     (Or.inr (by decide)),
   c9_unsupported_shape_is_per_artifact.2.2 [("A", "A_H", [])]
     ("DEMO", "DEMO_H", demoCSpace) [("B", "B_H", [])]⟩

/-! ## C10: field constants of the C output

From component_to_c.py, generate_register_bitfields: fields are taken from
the register's space in reversed order; for each field named
compname_regname_fieldname it prints the _LSB define with the field offset,
then for a 1-bit field without enums the direct bit constant
1 shl offset, otherwise the _MASK define ((1 shl size)-1) shl offset, the
value-setter define fieldname(x) = (x) shl fieldname_LSB, and one define per
enum applying fieldname to the enum's value. -/

/-- A field of a register in the C generator: name, bit offset, bit size and
the Enum children as (name, value) pairs. -/
structure CField where
  name : String
  offset : Nat
  size : Nat
  enums : List (String × Nat)
deriving DecidableEq

/-- An emitted preprocessor define: a plain constant, the value-setter form
NAME(x) shifting by NAME_LSB, or an application of a value-setter to an enum
value. -/
inductive CDefine where
  | const (name : String) (value : Nat)
  | setter (name : String) (lsb : Nat)
  | setterApp (name : String) (setter : String) (arg : Nat)
deriving DecidableEq

/-- From generate_register_bitfields: the defines emitted for one field. -/
def fieldDefines (regname : String) (f : CField) : List CDefine :=
  let fieldname := regname ++ "_" ++ f.name
  CDefine.const (fieldname ++ "_LSB") f.offset ::
  (if f.size = 1 ∧ f.enums = [] then
    [CDefine.const fieldname (2 ^ f.offset)]
  else
    CDefine.const (fieldname ++ "_MASK") ((2 ^ f.size - 1) * 2 ^ f.offset) ::
    CDefine.setter fieldname f.offset ::
    f.enums.map (fun e => CDefine.setterApp (fieldname ++ "_" ++ e.1)
      fieldname e.2))

/-- From generate_register_bitfields: all fields of the register named
compname_regname, in reversed order. -/
def registerBitfields (compname rname : String) (fields : List CField) :
    List CDefine :=
  fields.reverse.flatMap (fieldDefines (compname ++ "_" ++ rname))

/-- C10: for every field of a register, the C output holds the
{COMPONENT}_{REGISTER}_{FIELD}_LSB constant with the field's bit offset; a
1-bit field without enums additionally gets the direct bit constant
2^offset; any other field gets the _MASK constant (2^size - 1) * 2^offset,
the value-setter macro shifting by the field's LSB, and one setter
application per enum child at the enum's value. -/
theorem c10_field_defines (compname rname : String) (fields : List CField)
    (f : CField) (hf : f ∈ fields) :
    CDefine.const (compname ++ "_" ++ rname ++ "_" ++ f.name ++ "_LSB") f.offset
      ∈ registerBitfields compname rname fields ∧
    (f.size = 1 ∧ f.enums = [] →
      CDefine.const (compname ++ "_" ++ rname ++ "_" ++ f.name) (2 ^ f.offset)
        ∈ registerBitfields compname rname fields) ∧
    (¬ (f.size = 1 ∧ f.enums = []) →
      CDefine.const (compname ++ "_" ++ rname ++ "_" ++ f.name ++ "_MASK")
          ((2 ^ f.size - 1) * 2 ^ f.offset)
        ∈ registerBitfields compname rname fields ∧
      CDefine.setter (compname ++ "_" ++ rname ++ "_" ++ f.name) f.offset
        ∈ registerBitfields compname rname fields ∧
      ∀ e ∈ f.enums,
        CDefine.setterApp
            (compname ++ "_" ++ rname ++ "_" ++ f.name ++ "_" ++ e.1)
            (compname ++ "_" ++ rname ++ "_" ++ f.name) e.2
          ∈ registerBitfields compname rname fields) := by
  have hrev : f ∈ fields.reverse := List.mem_reverse.mpr hf
  refine ⟨?_, ?_, ?_⟩
  · exact List.mem_flatMap.mpr ⟨f, hrev, by simp [fieldDefines]⟩
  · intro hsimple
    exact List.mem_flatMap.mpr ⟨f, hrev, by simp [fieldDefines, hsimple]⟩
  · intro hcomplex
    refine ⟨List.mem_flatMap.mpr ⟨f, hrev, by simp [fieldDefines, hcomplex]⟩,
      List.mem_flatMap.mpr ⟨f, hrev, by simp [fieldDefines, hcomplex]⟩, ?_⟩
    intro e he
    refine List.mem_flatMap.mpr ⟨f, hrev, ?_⟩
    simp only [fieldDefines, if_neg hcomplex]
    refine List.mem_cons_of_mem _ (List.mem_cons_of_mem _
      (List.mem_cons_of_mem _ ?_))
    exact List.mem_map.mpr ⟨e, he, rfl⟩

/-- The MODE field of the §8 CTRL scenario, with one enum FAST = 2. -/
def modeField : CField := ⟨"MODE", 0, 4, [("FAST", 2)]⟩

/-- The 1-bit ENABLE field of the §8 CTRL scenario. -/
def enableField : CField := ⟨"ENABLE", 8, 1, []⟩

/-- C10 witness: in the CTRL register of component COMP, ENABLE gets its LSB
constant and direct bit constant 256, and MODE gets its LSB constant, mask
15, the setter, and the FAST enum application. -/
theorem c10_field_defines_witness :
    CDefine.const "COMP_CTRL_ENABLE_LSB" 8
      ∈ registerBitfields "COMP" "CTRL" [modeField, enableField] ∧
    CDefine.const "COMP_CTRL_ENABLE" 256
      ∈ registerBitfields "COMP" "CTRL" [modeField, enableField] ∧
    CDefine.const "COMP_CTRL_MODE_MASK" 15
      ∈ registerBitfields "COMP" "CTRL" [modeField, enableField] ∧
    CDefine.setter "COMP_CTRL_MODE" 0
      ∈ registerBitfields "COMP" "CTRL" [modeField, enableField] ∧
    CDefine.setterApp "COMP_CTRL_MODE_FAST" "COMP_CTRL_MODE" 2
      ∈ registerBitfields "COMP" "CTRL" [modeField, enableField] := by
  have hmode := c10_field_defines "COMP" "CTRL" [modeField, enableField]
    modeField (by decide)
  have henable := c10_field_defines "COMP" "CTRL" [modeField, enableField]
    enableField (by decide)
  have hm := hmode.2.2 (by decide)
  exact ⟨henable.1, henable.2.1 (by decide), hm.1, hm.2.1,
    hm.2.2 ("FAST", 2) (by decide)⟩

end RegisterMaps
